import Mathlib

/-!
# Verification of the lpc55-hal register-proxy and peripheral-lifecycle core

Shallow embedding of `src/src/reg_proxy.rs` (the `RegProxy`/`Reg` ownership
core) together with spec-modelled definitions for the peripheral typestate
(enable/disable) and the take-once peripheral set, whose implementations are
not part of the sources at hand.

Machine addresses are modelled as `Nat`; the observable hardware state is a
map from addresses to word values plus an allocation counter, threaded
explicitly through the operations that could in principle touch it.
-/

set_option autoImplicit false

/-- The observable machine state: memory-mapped registers as a map from
addresses to word values, plus a heap-allocation counter. All operations of
the register-proxy core are translated in state-passing style over this
state, so that "touches no hardware" and "allocates nothing" are provable
statements rather than conventions. -/
structure HWState where
  mem : Nat → Nat
  allocCount : Nat

/-- A register address binding: the data carried, at the type level, by an
implementation of the `Reg` trait of `src/src/reg_proxy.rs`. `periph`
identifies the peripheral the register belongs to, `targetId` identifies the
associated `Target` layout type, and `get` is the pointer value returned by
the trait method `fn get() -> *const Self::Target`. -/
structure Reg where
  periph : Nat
  targetId : Nat
  get : Nat
deriving DecidableEq, Repr

/-- Model of `core::marker::PhantomData`: a marker with a single, information
free value. -/
inductive PhantomData : Type
  | mk
deriving DecidableEq, Repr

/-- `RegProxy<T>` from `src/src/reg_proxy.rs`: a struct whose only field is
`_marker: PhantomData<*const T>`. The binding `T` appears only as a type
parameter; the value stores nothing. -/
structure RegProxy (T : Reg) where
  _marker : PhantomData
deriving DecidableEq, Repr

/-- A typed pointer or reference value: a raw address together with the
layout (the `Target` type) it is viewed at. Raw pointers `*const Target` and
references `&Target` share this representation. -/
structure TypedRef where
  addr : Nat
  layout : Nat
deriving DecidableEq, Repr

/-- `core::mem::transmute` between `*const Target` and `&'a Target`: both are
a machine address, so the reinterpretation is the identity on the
representation. -/
def transmute (r : TypedRef) : TypedRef := r

/-- The pointer returned by `T::get()`, as a typed pointer value: the bound
address viewed at the binding's `Target` layout. -/
def Reg.getPtr (T : Reg) : TypedRef :=
  TypedRef.mk T.get T.targetId

/-- `RegProxy::new` (src/src/reg_proxy.rs lines 53-57): builds the proxy by
filling in the phantom marker. It takes no inputs and cannot fail. -/
def RegProxy.new (T : Reg) : RegProxy T :=
  { _marker := PhantomData.mk }

/-- `RegProxy::new` in state-passing form. The source body is a plain struct
literal, so the translation leaves the hardware state untouched. -/
def RegProxy.newS (T : Reg) (s : HWState) : RegProxy T × HWState :=
  (RegProxy.new T, s)

/-- `<RegProxy<T> as Deref>::deref` (src/src/reg_proxy.rs lines 62-76):
`unsafe { transmute(T::get()) }` — the pointer from `T::get()` reinterpreted
as a reference, ignoring the proxy value itself. -/
def RegProxy.deref (T : Reg) (_p : RegProxy T) : TypedRef :=
  transmute (Reg.getPtr T)

/-- `deref` in state-passing form: the body only reinterprets a constant
pointer, performing no memory access, so the state passes through. -/
def RegProxy.derefS (T : Reg) (p : RegProxy T) (s : HWState) : TypedRef × HWState :=
  (RegProxy.deref T p, s)

/-- A Rust move: ownership transfer relocates a value to a new program
location without changing it, so it is the identity on the value. -/
def moveValue (T : Reg) (p : RegProxy T) : RegProxy T := p

/-- The body of the `get` implementation generated by the `reg!` declaration
(src/src/reg_proxy.rs lines 101-112): `&(*<$peripheral>::ptr()).$field as
*const _` — an address computation (peripheral block base plus field offset)
that reads nothing, in state-passing form. -/
def reg_get (base offset : Nat) (s : HWState) : Nat × HWState :=
  (base + offset, s)

/-- The `Reg` instance produced by a `reg!` declaration for a field at
`offset` inside the peripheral block at `base`. -/
def regBinding (periphId targetId base offset : Nat) : Reg :=
  Reg.mk periphId targetId (base + offset)

/-- Claim C2: any two proxies for the same binding `T` — in particular two
independently constructed ones — dereference to bit-identical typed
addresses, and the dereference result is a function of the binding type
alone, namely the reinterpreted `T::get()` pointer. -/
theorem regProxy_deref_deterministic (T : Reg) (p q : RegProxy T) (s1 s2 : HWState) :
    RegProxy.deref T p = RegProxy.deref T q ∧
    (RegProxy.deref T ((RegProxy.newS T s1).1)).addr
      = (RegProxy.deref T ((RegProxy.newS T s2).1)).addr ∧
    RegProxy.deref T p = transmute (Reg.getPtr T) :=
  ⟨rfl, rfl, rfl⟩

/-- Claim C4: dereferencing a proxy yields a reference located exactly at the
address returned by `T::get()`, viewed at the binding's `Target` layout; and
for any notion of validity over time, if the bound address is valid at all
times then so is the address of the returned reference, at all times. -/
theorem regProxy_deref_target (T : Reg) (p : RegProxy T)
    (Valid : Nat → Nat → Prop) (hv : ∀ t, Valid T.get t) :
    (RegProxy.deref T p).addr = T.get ∧
    (RegProxy.deref T p).layout = T.targetId ∧
    ∀ t, Valid (RegProxy.deref T p).addr t :=
  ⟨rfl, rfl, fun t => hv t⟩

/-- Witness for C4 at a concrete binding and the always-valid predicate. -/
theorem regProxy_deref_target_witness :
    (RegProxy.deref (Reg.mk 0 0 4096) (RegProxy.new (Reg.mk 0 0 4096))).addr
      = (Reg.mk 0 0 4096).get ∧
    (RegProxy.deref (Reg.mk 0 0 4096) (RegProxy.new (Reg.mk 0 0 4096))).layout
      = (Reg.mk 0 0 4096).targetId :=
  ⟨(regProxy_deref_target (Reg.mk 0 0 4096) (RegProxy.new (Reg.mk 0 0 4096))
      (fun _ _ => True) (fun _ => trivial)).1,
   (regProxy_deref_target (Reg.mk 0 0 4096) (RegProxy.new (Reg.mk 0 0 4096))
      (fun _ _ => True) (fun _ => trivial)).2.1⟩

/-- Claim C6: `RegProxy::new` always succeeds — from every hardware state it
returns the proxy value outright (no failure path), with the memory map and
the allocation counter unchanged. -/
theorem regProxy_new_total (T : Reg) (s : HWState) :
    (RegProxy.newS T s).1 = RegProxy.new T ∧
    (RegProxy.newS T s).2.mem = s.mem ∧
    (RegProxy.newS T s).2.allocCount = s.allocCount :=
  ⟨rfl, rfl, rfl⟩

/-- Claim C7: moving a proxy (ownership transfer) is address-preserving — the
dereference after the move equals the dereference before it. -/
theorem regProxy_move_preserves_address (T : Reg) (p : RegProxy T) :
    RegProxy.deref T (moveValue T p) = RegProxy.deref T p :=
  rfl

/-- Claim C8: a proxy carries no information at runtime — its only field is
the phantom marker, so all values of `RegProxy T` are equal (the type has at
most one inhabitant), while the binding tag `T` lives in the type alone. -/
theorem regProxy_zero_information (T : Reg) (p q : RegProxy T) : p = q := by
  cases p with
  | mk m =>
    cases q with
    | mk m2 =>
      cases m
      cases m2
      rfl

/-- Claim C9: neither construction nor dereference performs a hardware
transaction or changes any state — both return the hardware state exactly as
given. -/
theorem regProxy_no_side_effects (T : Reg) (p : RegProxy T) (s : HWState) :
    (RegProxy.newS T s).2 = s ∧ (RegProxy.derefS T p s).2 = s :=
  ⟨rfl, rfl⟩

/-- Claim C10: the `get` generated by a `reg!` declaration is pure and
stateless — it leaves the state unchanged, its result does not depend on the
state, and the returned pointer is the base of the peripheral block plus the
field offset, which is exactly the address the produced binding carries. -/
theorem reg_get_pure (periphId targetId base offset : Nat) (s s2 : HWState) :
    (reg_get base offset s).2 = s ∧
    (reg_get base offset s).1 = (reg_get base offset s2).1 ∧
    (reg_get base offset s).1 = base + offset ∧
    (regBinding periphId targetId base offset).get = (reg_get base offset s).1 :=
  ⟨rfl, rfl, rfl, rfl⟩

/-- Modelled from the spec: the clock/power controller's register block, of
which only the clock-enable bits matter here, represented as the set of bit
indices currently set. The `enable` transition "sets the peripheral's
clock-enable bit in the clock controller's register block"; the
implementation of the transitions is not among the sources at hand. -/
def enableClock (p : Nat) (c : Finset Nat) : Finset Nat :=
  insert p c

/-- Modelled from the spec: `disable` "clears the clock-enable bit". -/
def disableClock (p : Nat) (c : Finset Nat) : Finset Nat :=
  c.erase p

/-- Counterexample to claim C3 as stated: the claim quantifies over every
clock-controller state, but from a state in which the peripheral's
clock-enable bit is already set, `enable` followed by `disable` leaves the
bit clear, not at its original (set) value. -/
theorem clock_roundtrip_counterexample :
    0 ∈ ({0} : Finset Nat) ∧ 0 ∉ disableClock 0 (enableClock 0 ({0} : Finset Nat)) := by
  constructor
  · decide
  · simp [disableClock, enableClock]

/-- Claim C3 (amended): from every clock-controller state in which the
peripheral's clock-enable bit is clear — as is the case for a Disabled
handle — `enable` immediately followed by `disable` restores the whole clock
register, and in particular leaves the bit at its original value. -/
theorem clock_enable_disable_roundtrip (p : Nat) (c : Finset Nat) (h : p ∉ c) :
    disableClock p (enableClock p c) = c :=
  Finset.erase_insert h

/-- Witness for amended C3 at bit 0 and the all-clear clock register. -/
theorem clock_enable_disable_roundtrip_witness :
    0 ∉ (∅ : Finset Nat) ∧ disableClock 0 (enableClock 0 (∅ : Finset Nat)) = ∅ :=
  ⟨by decide, clock_enable_disable_roundtrip 0 ∅ (by decide)⟩

/-- The peripheral set handed out by the one-time acquisition. Its contents
(the per-peripheral handles) play no role in the take-once property, so it is
a unit-like token. -/
inductive PeripheralSet : Type
  | mk
deriving DecidableEq, Repr

/-- Modelled from the spec: the peripheral set is "obtained as a single
take-once structure" (`Pins::take` in the examples; the implementation is not
among the sources at hand). The boolean is the global taken flag, initially
`false`; the first call returns the set and latches the flag, every later
call signals "already taken" by returning `none`. -/
def takePeripherals (taken : Bool) : Option PeripheralSet × Bool :=
  if taken then (none, true) else (some PeripheralSet.mk, true)

/-- `n` successive acquisition attempts starting from a given taken flag,
returning the list of results. -/
def runTakes : Nat → Bool → List (Option PeripheralSet)
  | 0, _ => []
  | Nat.succ n, taken =>
    (takePeripherals taken).1 :: runTakes n (takePeripherals taken).2

/-- Once the set is taken, no later acquisition ever succeeds. -/
theorem runTakes_taken_all_fail (n : Nat) :
    List.countP (fun r => Option.isSome r) (runTakes n true) = 0 := by
  induction n with
  | zero => rfl
  | succ n ih => simp [runTakes, takePeripherals, List.countP_cons, ih]

/-- Claim C5: the first acquisition of the peripheral set succeeds, a second
acquisition fails ("already taken") rather than returning a second aliasing
handle, and in every sequence of acquisition attempts from boot at most one
succeeds. -/
theorem take_once (n : Nat) :
    (takePeripherals false).1 = some PeripheralSet.mk ∧
    (takePeripherals (takePeripherals false).2).1 = none ∧
    List.countP (fun r => Option.isSome r) (runTakes n false) ≤ 1 := by
  refine ⟨rfl, rfl, ?_⟩
  cases n with
  | zero => decide
  | succ n =>
    simp [runTakes, takePeripherals, List.countP_cons, runTakes_taken_all_fail n]

/-- A proxy held by the caller, together with its provenance: `viaEnable` is
`true` when it was yielded by the enable transition, `false` when it was
built by calling the public `RegProxy::new` directly. -/
structure Obtained where
  binding : Reg
  viaEnable : Bool
deriving DecidableEq, Repr

/-- Modelled from the spec (the enable/disable implementation is not among
the sources at hand): the state visible through the public interface — the
take-once flag for the peripheral set, the current clock-enabled flag per
peripheral, the history flag recording whether `enable` was ever called for
a peripheral, and the proxies the caller has obtained so far. -/
structure Sys where
  taken : Bool
  enabled : Nat → Bool
  everEnabled : Nat → Bool
  obtained : List Obtained

/-- Boot state: the peripheral set not yet taken, every peripheral Disabled,
no proxies obtained. -/
def Sys.init : Sys :=
  { taken := false
    enabled := fun _ => false
    everEnabled := fun _ => false
    obtained := [] }

/-- The operations of the public interface. `take` is the one-time
peripheral-set acquisition; `enable`/`disable` are the typestate transitions
(requiring the taken set, hence a Disabled handle); `newProxy` is the public
`RegProxy::new` of src/src/reg_proxy.rs, which has no precondition. -/
inductive Op : Type
  | take
  | enable (p : Nat)
  | disable (p : Nat)
  | newProxy (b : Reg)

/-- Pointwise update of a boolean map. -/
def setB (f : Nat → Bool) (p : Nat) (v : Bool) : Nat → Bool :=
  fun q => if q = p then v else f q

/-- One public-interface step. `enable p` consumes a Disabled handle (so the
set must be taken and `p` not yet enabled), sets the clock-enable state and
yields proxies for the peripheral's registers as given by the vendor map
`regsOf`; `newProxy` appends a directly constructed proxy unconditionally,
mirroring the unconditional public `RegProxy::new`. -/
def stepOp (regsOf : Nat → List Reg) (s : Sys) : Op → Sys
  | Op.take => if s.taken then s else { s with taken := true }
  | Op.enable p =>
    if s.taken && !(s.enabled p) then
      { s with
          enabled := setB s.enabled p true
          everEnabled := setB s.everEnabled p true
          obtained := s.obtained ++ List.map (fun b => Obtained.mk b true) (regsOf p) }
    else s
  | Op.disable p =>
    if s.enabled p then { s with enabled := setB s.enabled p false } else s
  | Op.newProxy b => { s with obtained := s.obtained ++ [Obtained.mk b false] }

/-- Run a sequence of public-interface operations from boot. -/
def runOps (regsOf : Nat → List Reg) (ops : List Op) : Sys :=
  List.foldl (stepOp regsOf) Sys.init ops

/-- The enable history only ever grows: no step clears `everEnabled`. -/
theorem stepOp_everEnabled_mono (regsOf : Nat → List Reg) (s : Sys) (op : Op) (q : Nat)
    (h : s.everEnabled q = true) : (stepOp regsOf s op).everEnabled q = true := by
  cases op with
  | take =>
    simp only [stepOp]
    split
    · exact h
    · exact h
  | enable p =>
    simp only [stepOp]
    split
    · show setB s.everEnabled p true q = true
      unfold setB
      split
      · rfl
      · exact h
    · exact h
  | disable p =>
    simp only [stepOp]
    split
    · exact h
    · exact h
  | newProxy b => exact h

/-- The invariant behind the amended claim C1: every proxy obtained through
the enable transition belongs to a peripheral whose `enable` has been
called. -/
def EnableGated (s : Sys) : Prop :=
  ∀ o, o ∈ s.obtained → o.viaEnable = true → s.everEnabled o.binding.periph = true

/-- Each public-interface step preserves the invariant, provided the vendor
map assigns each peripheral its own registers. -/
theorem stepOp_preserves_enableGated (regsOf : Nat → List Reg)
    (hW : ∀ p b, b ∈ regsOf p → b.periph = p)
    (s : Sys) (op : Op) (hs : EnableGated s) : EnableGated (stepOp regsOf s op) := by
  intro o ho hv
  cases op with
  | take =>
    have hum := stepOp_everEnabled_mono regsOf s Op.take o.binding.periph
    simp only [stepOp] at ho hum ⊢
    revert ho hum
    split
    · intro ho hum
      exact hs o ho hv
    · intro ho hum
      exact hs o ho hv
  | enable p =>
    by_cases hc : (s.taken && !(s.enabled p)) = true
    · simp only [stepOp, if_pos hc] at ho ⊢
      rcases List.mem_append.mp ho with h1 | h2
      · have h3 := hs o h1 hv
        show setB s.everEnabled p true o.binding.periph = true
        unfold setB
        split
        · rfl
        · exact h3
      · rcases List.mem_map.mp h2 with ⟨b, hb, rfl⟩
        have hbp : b.periph = p := hW p b hb
        show setB s.everEnabled p true (Obtained.mk b true).binding.periph = true
        unfold setB
        simp [hbp]
    · simp only [stepOp, if_neg hc] at ho ⊢
      exact hs o ho hv
  | disable p =>
    simp only [stepOp] at ho ⊢
    revert ho
    split
    · intro ho
      exact hs o ho hv
    · intro ho
      exact hs o ho hv
  | newProxy b =>
    simp only [stepOp] at ho ⊢
    rcases List.mem_append.mp ho with h1 | h2
    · exact hs o h1 hv
    · rw [List.mem_singleton] at h2
      subst h2
      exact Bool.noConfusion hv

/-- The invariant holds after any run of public-interface operations. -/
theorem runOps_enableGated_aux (regsOf : Nat → List Reg)
    (hW : ∀ p b, b ∈ regsOf p → b.periph = p) :
    ∀ (ops : List Op) (s : Sys), EnableGated s → EnableGated (List.foldl (stepOp regsOf) s ops) := by
  intro ops
  induction ops with
  | nil => intro s h; exact h
  | cons op rest ih =>
    intro s h
    exact ih (stepOp regsOf s op) (stepOp_preserves_enableGated regsOf hW s op h)

/-- Counterexample to claim C1 as stated: through the public interface, the
single operation `RegProxy::new` — callable with no precondition — yields a
proxy for a peripheral that has never completed the Disabled→Enabled
transition. -/
theorem proxy_before_enable_counterexample :
    ∃ o ∈ (runOps (fun p => [Reg.mk p 0 (4096 + p)]) [Op.newProxy (Reg.mk 0 0 4096)]).obtained,
      (runOps (fun p => [Reg.mk p 0 (4096 + p)])
        [Op.newProxy (Reg.mk 0 0 4096)]).everEnabled o.binding.periph = false := by
  refine ⟨Obtained.mk (Reg.mk 0 0 4096) false, ?_, ?_⟩
  · simp [runOps, stepOp, Sys.init]
  · rfl

/-- Claim C1 (amended): proxies yielded by the enable transition are only
obtainable after `enable(P)` has been called — in every state reachable
through the public interface, every obtained proxy with enable provenance
belongs to a peripheral whose enable history flag is set. Proxies built by
calling the public `RegProxy::new` directly are excluded: they are
constructible at any time. -/
theorem proxy_via_enable_only_after_enable (regsOf : Nat → List Reg)
    (hW : ∀ p b, b ∈ regsOf p → b.periph = p)
    (ops : List Op) (o : Obtained)
    (ho : o ∈ (runOps regsOf ops).obtained) (hv : o.viaEnable = true) :
    (runOps regsOf ops).everEnabled o.binding.periph = true :=
  runOps_enableGated_aux regsOf hW ops Sys.init
    (fun o ho _ => absurd ho (List.not_mem_nil o)) o ho hv

/-- Witness for amended C1: after `take` then `enable 0`, the proxy yielded
by the transition is held and peripheral 0's enable history flag is set. -/
theorem proxy_via_enable_witness :
    Obtained.mk (Reg.mk 0 0 4096) true
      ∈ (runOps (fun p => [Reg.mk p 0 (4096 + p)]) [Op.take, Op.enable 0]).obtained ∧
    (runOps (fun p => [Reg.mk p 0 (4096 + p)]) [Op.take, Op.enable 0]).everEnabled
      (Obtained.mk (Reg.mk 0 0 4096) true).binding.periph = true := by
  have hm : Obtained.mk (Reg.mk 0 0 4096) true
      ∈ (runOps (fun p => [Reg.mk p 0 (4096 + p)]) [Op.take, Op.enable 0]).obtained := by
    simp [runOps, stepOp, Sys.init, setB]
  refine ⟨hm, ?_⟩
  exact proxy_via_enable_only_after_enable (fun p => [Reg.mk p 0 (4096 + p)])
    (by
      intro p b hb
      rw [List.mem_singleton] at hb
      subst hb
      rfl)
    [Op.take, Op.enable 0] (Obtained.mk (Reg.mk 0 0 4096) true) hm rfl
